import Mathlib

/-!
# Shallow embedding of `src/pulse_generator.rs` (pico-pulse)

The pulse-timing engine of the pico-pulse repository: the micro-program
compiler `assemble`, the per-channel configuration state
(`PulseParameter` inside `PulseGeneratorChannel`), and the `arm`
operation that encodes the accumulated delay/width steps into a flat
word stream and hands it to DMA.

Modelling conventions:
- `u32` values are `Nat`; `saturating_sub(1)` is truncated `Nat`
  subtraction `n - 1`, which is exactly saturating.
- `ArrayVec<u32, CAP>` is a `List Nat`; `push` is `avPush`, which
  returns `none` when the vector is full (the arrayvec crate's `push`
  panics at capacity); `pop_at(0)` is head removal, `none` on empty.
- Rust panics (`Option::unwrap` on `None`, `ArrayVec::push` at
  capacity) are modelled as `none` / the `panicked` outcome.
- Hardware commands issued by `arm` (state-machine stop, DMA transfer
  start, state-machine restart) are recorded in an explicit `HwCmd`
  trace, in issue order.
- The in-flight DMA transfer (`single_buffer::Transfer`, the spec's
  ArmedTransfer) is modelled by the word buffer it delivers.
-/

namespace PicoPulse

/-- `pub const NUM_PULSES_MAX: usize = 32;` -/
def NUM_PULSES_MAX : Nat := 32

/-- `const DMA_BUF_LEN: usize = NUM_PULSES_MAX * 2 + 1;` -/
def DMA_BUF_LEN : Nat := NUM_PULSES_MAX * 2 + 1

/-- `pub enum EdgePolarity { Rising, Falling }` -/
inductive EdgePolarity
  | Rising
  | Falling
deriving DecidableEq

/-- `pub struct EdgeTrigger { pub index: u8, pub polarity: EdgePolarity }` -/
structure EdgeTrigger where
  index : Nat
  polarity : EdgePolarity
deriving DecidableEq

/-- `pub enum Trigger { Edge(EdgeTrigger), Immediate }` -/
inductive Trigger
  | Edge (t : EdgeTrigger)
  | Immediate
deriving DecidableEq

/-- `ArrayVec::<u32, cap>::push`: appends when below capacity, `none`
(the arrayvec crate panics) when full. -/
def avPush (cap : Nat) (xs : List Nat) (x : Nat) : Option (List Nat) :=
  if xs.length < cap then some (xs ++ [x]) else none

/-- `struct PulseParameter { index, delay, width, trigger_edge_count }` -/
structure PulseParameter where
  index : Nat
  delay : List Nat
  width : List Nat
  trigger_edge_count : Nat
deriving DecidableEq

/-- `PulseParameter::new(index)` -/
def PulseParameter.new (index : Nat) : PulseParameter :=
  { index := index, delay := [], width := [], trigger_edge_count := 0 }

/-- `PulseGeneratorChannel` state: the four `Option` slots plus the
parameter block. `sm = some ()` models holding a running
`StateMachine`; `tx_transfer` holds the word buffer of the in-flight
DMA transfer (the ArmedTransfer), when one exists. -/
structure Channel where
  sm : Option Unit
  tx : Option Unit
  dma_ch : Option Unit
  tx_transfer : Option (List Nat)
  param : PulseParameter
deriving DecidableEq

/-- The channel state as built by `PulseGenerator::new` (lines 191-204):
state machine started, FIFO handle and DMA channel present, no
transfer yet. -/
def Channel.fresh (pin : Nat) : Channel :=
  { sm := some (), tx := some (), dma_ch := some (),
    tx_transfer := none, param := PulseParameter.new pin }

/-- `set_delay`: `self.param.delay.push(cycle.saturating_sub(1))`.
`none` models the `ArrayVec::push` panic on a full (32-entry) list. -/
def set_delay (c : Channel) (cycle : Nat) : Option Channel :=
  (avPush NUM_PULSES_MAX c.param.delay (cycle - 1)).map
    (fun d => { c with param := { c.param with delay := d } })

/-- `set_width`: `self.param.width.push(cycle.saturating_sub(1))`. -/
def set_width (c : Channel) (cycle : Nat) : Option Channel :=
  (avPush NUM_PULSES_MAX c.param.width (cycle - 1)).map
    (fun w => { c with param := { c.param with width := w } })

/-- `set_trigger_edge_count`: stores `count.saturating_sub(1)`. -/
def set_trigger_edge_count (c : Channel) (count : Nat) : Channel :=
  { c with param := { c.param with trigger_edge_count := count - 1 } }

/-- One arm error; the source's sole failure `Err(())` at the
delay/width length check, named per the spec's taxonomy. -/
inductive ArmError
  | LengthMismatch
deriving DecidableEq

/-- A hardware command issued by `arm`, in program order:
`sm.stop()`, `single_buffer::Config::new(..).start()` (with the words
the transfer will deliver), `sm.start()`. -/
inductive HwCmd
  | stop
  | dmaStart (words : List Nat)
  | start
deriving DecidableEq

/-- Outcome of `arm`: `ok`/`err` carry the resulting channel state and
the trace of hardware commands issued; `panicked` carries the commands
issued before the panic. -/
inductive ArmOutcome
  | ok (c : Channel) (cmds : List HwCmd)
  | err (e : ArmError) (c : Channel) (cmds : List HwCmd)
  | panicked (cmds : List HwCmd)
deriving DecidableEq

/-- The buffer-filling loop of `arm` (lines 125-134):
repeatedly `pop_at(0)` a delay (pushing it if present) then a width
(pushing it and continuing if present; breaking otherwise). Returns
the remaining delay list, the remaining width list, and the filled
buffer; `none` models a `buf.push` panic past `DMA_BUF_LEN`.
Once the delay list is exhausted, each remaining iteration of the
source loop pops no delay and pushes one width until the width list
is empty; that tail phase is `armLoopWidths`, split out so the main
loop is structurally recursive on the delay list. -/
def armLoopWidths : List Nat → List Nat → Option (List Nat)
  | [], buf => some buf
  | w :: ws, buf => do
      let buf1 ← avPush DMA_BUF_LEN buf w
      armLoopWidths ws buf1

def armLoop : List Nat → List Nat → List Nat →
    Option (List Nat × List Nat × List Nat)
  | d :: ds, w :: ws, buf => do
      let buf1 ← avPush DMA_BUF_LEN buf d
      let buf2 ← avPush DMA_BUF_LEN buf1 w
      armLoop ds ws buf2
  | d :: ds, [], buf => do
      let buf1 ← avPush DMA_BUF_LEN buf d
      some (ds, [], buf1)
  | [], ws, buf => (armLoopWidths ws buf).map (fun b => ([], [], b))

/-- `PulseGeneratorChannel::arm` (lines 113-149).
Order of effects follows the source exactly: length validation first
(early `Err` with nothing touched); then `sm.take().unwrap()` and
`sm.stop()`; then `tx.take().unwrap()`; then the buffer is built
(`trigger_edge_count` first, then the drain loop); then
`dma_ch.take().unwrap()`; then the DMA transfer is started, the state
machine restarted, and the new transfer stored (dropping any previous
one). `tx` and `dma_ch` are moved into the transfer and never put
back. -/
def arm (c : Channel) : ArmOutcome :=
  if c.param.delay.length ≠ c.param.width.length then
    .err .LengthMismatch c []
  else
    match c.sm with
    | none => .panicked []
    | some _ =>
      match c.tx with
      | none => .panicked [.stop]
      | some _ =>
        match avPush DMA_BUF_LEN [] c.param.trigger_edge_count with
        | none => .panicked [.stop]
        | some buf0 =>
          match armLoop c.param.delay c.param.width buf0 with
          | none => .panicked [.stop]
          | some (delayRest, widthRest, buf) =>
            match c.dma_ch with
            | none => .panicked [.stop]
            | some _ =>
              .ok { sm := some (), tx := none, dma_ch := none,
                    tx_transfer := some buf,
                    param := { c.param with
                                delay := delayRest, width := widthRest } }
                  [.stop, .dmaStart buf, .start]

/-- `triggered`: `self.tx_transfer.as_ref().unwrap().is_done()`.
The DMA engine's `is_done` status is an external input, passed as
`isDone`; `none` models the `unwrap` panic when no transfer exists. -/
def triggered (isDone : List Nat → Bool) (c : Channel) : Option Bool :=
  c.tx_transfer.map isDone

/-! ## The micro-program compiler (`assemble`, lines 210-262) -/

/-- PIO wait sources used by the program (only GPIO occurs). -/
inductive WaitSrc
  | Gpio
deriving DecidableEq

/-- `mov` destinations used by the program. -/
inductive MovDst
  | X
  | Y
deriving DecidableEq

/-- `mov` sources used by the program. -/
inductive MovSrc
  | OSR
deriving DecidableEq

/-- Jump conditions used by the program. -/
inductive JmpCond
  | XDecNonZero
  | YDecNonZero
  | Always
deriving DecidableEq

/-- One PIO instruction as emitted by `assemble`. `jmp` carries its
resolved target address and an optional side-set value
(`jmp_with_side_set` sets it, plain `jmp` leaves it `none`). -/
inductive Instr
  | pull (if_empty block : Bool)
  | mov (dst : MovDst) (src : MovSrc)
  | wait (polarity : Nat) (src : WaitSrc) (index : Nat) (rel : Bool)
  | jmp (cond : JmpCond) (target : Nat) (side : Option Nat)
deriving DecidableEq

/-- `assemble(trigger, index)`. Label resolution: with an Edge trigger
the prologue occupies addresses 0-4 and `edge_label` is bound at
address 2 (the first wait); the pulse-train loop starts at
`base = prologue.length` (5 for Edge, 0 for Immediate), `loop_label`
is bound at `base`, `delay_label` at `base + 4`, `width_label` at
`base + 5`. Note the waits use the `index` argument of `assemble`;
the `EdgeTrigger`'s own `index` field is never read. -/
def assemble (trigger : Trigger) (index : Nat) : List Instr :=
  let prologue : List Instr :=
    match trigger with
    | .Edge et =>
        [.pull false true, .mov .Y .OSR] ++
        (match et.polarity with
         | .Falling => [.wait 1 .Gpio index false, .wait 0 .Gpio index false]
         | .Rising => [.wait 0 .Gpio index false, .wait 1 .Gpio index false]) ++
        [.jmp .YDecNonZero 2 none]
    | .Immediate => []
  let base := prologue.length
  prologue ++
  [.pull false true, .mov .X .OSR,
   .pull false true, .mov .Y .OSR,
   .jmp .XDecNonZero (base + 4) none,
   .jmp .YDecNonZero (base + 5) (some 1),
   .jmp .Always base (some 0)]

/-- `PulseGenerator::new` installs `assemble(&trigger, 0)` — the
trigger-pin argument is the hardcoded literal `0` (line 169). -/
def pulseGeneratorProgram (trigger : Trigger) : List Instr :=
  assemble trigger 0

/-- The two channels as constructed by `PulseGenerator::new`:
ch0 on pin 15, ch1 on pin 16, both with started state machines and no
transfer in flight. -/
structure PulseGenerator where
  program : List Instr
  ch0 : Channel
  ch1 : Channel
deriving DecidableEq

/-- `PulseGenerator::new(pio, dma, trigger, resets)` (hardware handles
elided; they only prove ownership). -/
def PulseGenerator.new (trigger : Trigger) : PulseGenerator :=
  { program := pulseGeneratorProgram trigger,
    ch0 := Channel.fresh 15,
    ch1 := Channel.fresh 16 }

/-! ## Encoding / decoding of the word stream -/

/-- The flat encoding of ordered (delay, width) pairs:
`[d0, w0, d1, w1, ...]`. -/
def encodePairs (ps : List (Nat × Nat)) : List Nat :=
  (ps.map (fun p => [p.1, p.2])).flatten

/-- Modelled from the spec: the repository contains no decoder; the
spec's round-trip property (§8) refers to a test-purpose decoder that
splits the tail of the stream back into ordered (delay, width) pairs.
Fails on an odd-length tail. -/
def decodePairs : List Nat → Option (List (Nat × Nat))
  | [] => some []
  | d :: w :: rest => (decodePairs rest).map (fun ps => (d, w) :: ps)
  | [_] => none

/-- Modelled from the spec: the test-purpose decoder of a full word
stream `[armCount, d0, w0, ...]` — first word is the arm-count, the
rest decodes pairwise. -/
def decodeStream : List Nat → Option (Nat × List (Nat × Nat))
  | [] => none
  | count :: rest => (decodePairs rest).map (fun ps => (count, ps))

/-! ## Helper lemmas -/

lemma avPush_of_lt {cap : Nat} {xs : List Nat} (x : Nat)
    (h : xs.length < cap) : avPush cap xs x = some (xs ++ [x]) := by
  simp [avPush, h]

lemma encodePairs_nil : encodePairs [] = [] := rfl

lemma encodePairs_cons (d w : Nat) (ps : List (Nat × Nat)) :
    encodePairs ((d, w) :: ps) = d :: w :: encodePairs ps := rfl

lemma encodePairs_length (ps : List (Nat × Nat)) :
    (encodePairs ps).length = 2 * ps.length := by
  induction ps with
  | nil => rfl
  | cons p ps ih =>
      obtain ⟨d, w⟩ := p
      simp [encodePairs_cons, ih]
      ring

lemma decodePairs_encodePairs (ps : List (Nat × Nat)) :
    decodePairs (encodePairs ps) = some ps := by
  induction ps with
  | nil => rfl
  | cons p ps ih =>
      obtain ⟨d, w⟩ := p
      rw [encodePairs_cons, decodePairs, ih]
      rfl

/-- On equal-length lists that fit the DMA buffer, the drain loop
empties both lists and appends the interleaved pairs to the buffer. -/
lemma armLoop_eq (ds ws buf : List Nat) (hlen : ds.length = ws.length)
    (hcap : buf.length + 2 * ds.length ≤ DMA_BUF_LEN) :
    armLoop ds ws buf = some ([], [], buf ++ encodePairs (ds.zip ws)) := by
  induction ds generalizing ws buf with
  | nil =>
      cases ws with
      | nil => simp [armLoop, armLoopWidths, encodePairs]
      | cons w ws => simp at hlen
  | cons d ds ih =>
      cases ws with
      | nil => simp at hlen
      | cons w ws =>
          simp only [List.length_cons] at hcap
          have h1 : buf.length < DMA_BUF_LEN := by omega
          have h2 : (buf ++ [d]).length < DMA_BUF_LEN := by
            simp only [List.length_append, List.length_cons,
              List.length_nil]
            omega
          have hlen' : ds.length = ws.length := by
            simpa using hlen
          have hcap' : (buf ++ [d] ++ [w]).length + 2 * ds.length ≤
              DMA_BUF_LEN := by
            simp only [List.length_append, List.length_cons,
              List.length_nil]
            omega
          rw [armLoop]
          simp only [avPush_of_lt d h1, avPush_of_lt w h2,
            Option.pure_def, Option.bind_eq_bind, Option.some_bind]
          rw [ih ws (buf ++ [d] ++ [w]) hlen' hcap']
          simp [encodePairs_cons, List.append_assoc]

lemma zip_of_maps (ps : List (Nat × Nat)) :
    (ps.map Prod.fst).zip (ps.map Prod.snd) = ps := by
  induction ps with
  | nil => rfl
  | cons p ps ih => simp [ih]

/-- Characterisation of a successful `arm`: on an armable channel
(state machine, FIFO handle, and DMA channel all present) with
equal-length lists that fit the ArrayVec capacity, `arm` issues
stop / DMA-start / restart, drains both lists, and stores the stream
`[trigger_edge_count, d0, w0, ...]` as the new transfer. -/
lemma arm_ok_of (c : Channel) (hsm : c.sm = some ()) (htx : c.tx = some ())
    (hdma : c.dma_ch = some ())
    (heq : c.param.delay.length = c.param.width.length)
    (hle : c.param.delay.length ≤ NUM_PULSES_MAX) :
    arm c = .ok
      { sm := some (), tx := none, dma_ch := none,
        tx_transfer := some (c.param.trigger_edge_count ::
          encodePairs (c.param.delay.zip c.param.width)),
        param := { c.param with delay := [], width := [] } }
      [.stop,
       .dmaStart (c.param.trigger_edge_count ::
          encodePairs (c.param.delay.zip c.param.width)),
       .start] := by
  have h0 : avPush DMA_BUF_LEN [] c.param.trigger_edge_count =
      some [c.param.trigger_edge_count] := by
    simp [avPush, DMA_BUF_LEN, NUM_PULSES_MAX]
  have hcap : [c.param.trigger_edge_count].length +
      2 * c.param.delay.length ≤ DMA_BUF_LEN := by
    simp only [List.length_cons, List.length_nil, DMA_BUF_LEN,
      NUM_PULSES_MAX] at *
    omega
  rw [arm, if_neg (fun hne => hne heq), hsm, htx, h0, hdma]
  simp only [armLoop_eq _ _ _ heq hcap, List.singleton_append]

/-! ## Claim theorems -/

/-- An armable channel as left by `PulseGenerator::new`, with a
mismatched configuration: one delay step, no width step. -/
def chMismatch : Channel :=
  { sm := some (), tx := some (), dma_ch := some (), tx_transfer := none,
    param := { index := 15, delay := [9], width := [],
               trigger_edge_count := 0 } }

/-- An armable channel with one matched (delay, width) step. -/
def chOneStep : Channel :=
  { sm := some (), tx := some (), dma_ch := some (), tx_transfer := none,
    param := { index := 15, delay := [9], width := [9],
               trigger_edge_count := 0 } }

/-- C1: on any channel, a delay/width length mismatch makes `arm` fail
with `LengthMismatch`, returning the channel unchanged (previous
transfer included) with no hardware command issued; and on an armable
channel (state machine, FIFO, DMA channel present, list within the
32-step capacity) `arm` succeeds iff the lengths are equal. -/
theorem arm_length_validation (c : Channel) :
    (c.param.delay.length ≠ c.param.width.length →
      arm c = .err .LengthMismatch c []) ∧
    (c.sm = some () → c.tx = some () → c.dma_ch = some () →
      c.param.delay.length ≤ NUM_PULSES_MAX →
      ((∃ c' cmds, arm c = .ok c' cmds) ↔
        c.param.delay.length = c.param.width.length)) := by
  constructor
  · intro hne
    rw [arm, if_pos hne]
  · intro hsm htx hdma hle
    constructor
    · rintro ⟨c', cmds, hok⟩
      by_contra hne
      rw [arm, if_pos hne] at hok
      simp at hok
    · intro heq
      exact ⟨_, _, arm_ok_of c hsm htx hdma heq hle⟩

/-- Witness for C1: a concrete mismatched channel is rejected
untouched with no commands, and a concrete matched channel arms. -/
theorem arm_length_validation_witness :
    arm chMismatch = .err .LengthMismatch chMismatch [] ∧
    ∃ c' cmds, arm chOneStep = .ok c' cmds :=
  ⟨(arm_length_validation chMismatch).1 (by decide),
   ((arm_length_validation chOneStep).2 rfl rfl rfl (by decide)).mpr
     (by decide)⟩

/-- The channel state `arm` leaves behind on `chOneStep`: the FIFO
handle and DMA channel were moved into the transfer and never put
back. -/
def chOneStepArmed : Channel :=
  { sm := some (), tx := none, dma_ch := none,
    tx_transfer := some [0, 9, 9],
    param := { index := 15, delay := [], width := [],
               trigger_edge_count := 0 } }

/-- C2 (the code contradicts it): after one successful `arm`, the
delay and width lists have equal length (both empty), yet a second
`arm` call panics — `self.tx.take().unwrap()` unwraps `None`, after
the halt command was already issued — instead of returning `Ok`. -/
theorem second_arm_panics :
    arm chOneStep = .ok chOneStepArmed [.stop, .dmaStart [0, 9, 9], .start] ∧
    chOneStepArmed.param.delay.length = chOneStepArmed.param.width.length ∧
    arm chOneStepArmed = .panicked [.stop] := by decide

/-- A one-step channel used for the C7 counterexample. -/
def chC7 : Channel :=
  { sm := some (), tx := some (), dma_ch := some (), tx_transfer := none,
    param := { index := 15, delay := [9], width := [9],
               trigger_edge_count := 0 } }

/-- The state `arm` leaves behind on `chC7`. -/
def chC7Armed : Channel :=
  { sm := some (), tx := none, dma_ch := none,
    tx_transfer := some [0, 9, 9],
    param := { index := 15, delay := [], width := [],
               trigger_edge_count := 0 } }

/-- C7 counterexample: `arm` does not leave the configured steps in
the channel's lists — on a channel configured with one step, the
post-arm delay list is empty, not the configured `[9]`. -/
theorem arm_drains_counterexample :
    arm chC7 = .ok chC7Armed [.stop, .dmaStart [0, 9, 9], .start] ∧
    chC7.param.delay = [9] ∧ chC7.param.width = [9] ∧
    chC7Armed.param.delay = [] ∧ chC7Armed.param.width = [] ∧
    chC7Armed.param.delay ≠ chC7.param.delay := by decide

/-- C7 amended: `arm` moves (drains) the step configuration into the
transfer's word stream via `pop_at(0)`: after a successful `arm` the
delay and width lists are empty and the stream holds the old
configuration, so a subsequent `arm` encodes zero steps unless the
caller re-supplies them. -/
theorem arm_drains_steps (c : Channel) (hsm : c.sm = some ())
    (htx : c.tx = some ()) (hdma : c.dma_ch = some ())
    (heq : c.param.delay.length = c.param.width.length)
    (hle : c.param.delay.length ≤ NUM_PULSES_MAX) :
    ∃ cmds, arm c = .ok
      { sm := some (), tx := none, dma_ch := none,
        tx_transfer := some (c.param.trigger_edge_count ::
          encodePairs (c.param.delay.zip c.param.width)),
        param := { c.param with delay := [], width := [] } } cmds :=
  ⟨_, arm_ok_of c hsm htx hdma heq hle⟩

/-- Witness for C7's amended theorem at the concrete one-step
channel. -/
theorem arm_drains_steps_witness :
    ∃ cmds, arm chOneStep = .ok
      { sm := some (), tx := none, dma_ch := none,
        tx_transfer := some (chOneStep.param.trigger_edge_count ::
          encodePairs (chOneStep.param.delay.zip chOneStep.param.width)),
        param := { chOneStep.param with delay := [], width := [] } } cmds :=
  arm_drains_steps chOneStep rfl rfl rfl (by decide) (by decide)

/-- C3: for every arm-count and every list of 1 to 32 configured
(delay, width) pairs, the word stream `arm` builds and hands to DMA is
exactly `[armCount, delay0, width0, ...]` in configuration order, of
length `1 + 2k`, and the test-purpose decoder recovers the arm-count
and the ordered pairs exactly. -/
theorem arm_stream_roundtrip (count : Nat) (ps : List (Nat × Nat))
    (_hk : 1 ≤ ps.length) (hle : ps.length ≤ NUM_PULSES_MAX) :
    ∃ stream,
      arm { sm := some (), tx := some (), dma_ch := some (),
            tx_transfer := none,
            param := { index := 15, delay := ps.map Prod.fst,
                       width := ps.map Prod.snd,
                       trigger_edge_count := count } } =
        .ok { sm := some (), tx := none, dma_ch := none,
              tx_transfer := some stream,
              param := { index := 15, delay := [], width := [],
                         trigger_edge_count := count } }
          [.stop, .dmaStart stream, .start] ∧
      stream = count :: encodePairs ps ∧
      stream.length = 1 + 2 * ps.length ∧
      decodeStream stream = some (count, ps) := by
  refine ⟨count :: encodePairs ps, ?_, rfl, ?_, ?_⟩
  · have h := arm_ok_of
      { sm := some (), tx := some (), dma_ch := some (),
        tx_transfer := none,
        param := { index := 15, delay := ps.map Prod.fst,
                   width := ps.map Prod.snd,
                   trigger_edge_count := count } }
      rfl rfl rfl (by simp) (by simpa using hle)
    simpa [zip_of_maps] using h
  · simp [encodePairs_length, Nat.add_comm]
  · simp [decodeStream, decodePairs_encodePairs]

/-- Witness for C3 at the spec's Scenario B configuration: two stored
pairs (9999, 9999) and (19999, 19999) with arm-count 0. -/
theorem arm_stream_roundtrip_witness :
    ∃ stream,
      arm { sm := some (), tx := some (), dma_ch := some (),
            tx_transfer := none,
            param := { index := 15,
                       delay := [(9999, 9999), (19999, 19999)].map Prod.fst,
                       width := [(9999, 9999), (19999, 19999)].map Prod.snd,
                       trigger_edge_count := 0 } } =
        .ok { sm := some (), tx := none, dma_ch := none,
              tx_transfer := some stream,
              param := { index := 15, delay := [], width := [],
                         trigger_edge_count := 0 } }
          [.stop, .dmaStart stream, .start] ∧
      stream = 0 :: encodePairs [(9999, 9999), (19999, 19999)] ∧
      stream.length = 1 + 2 * ([(9999, 9999), (19999, 19999)] :
        List (Nat × Nat)).length ∧
      decodeStream stream = some (0, [(9999, 9999), (19999, 19999)]) :=
  arm_stream_roundtrip 0 [(9999, 9999), (19999, 19999)]
    (by decide) (by decide)

/-- C4: `set_delay`, `set_width` and `set_trigger_edge_count` store
`n.saturating_sub(1)`: the stored value is the truncated (saturating)
`n - 1`, inputs 0 and 1 both store 0, and for `n ≥ 1` the stored value
is exactly one less than `n`. -/
theorem set_ops_saturating (c : Channel) (n : Nat)
    (hd : c.param.delay.length < NUM_PULSES_MAX)
    (hw : c.param.width.length < NUM_PULSES_MAX) :
    set_delay c n =
      some { c with param :=
        { c.param with delay := c.param.delay ++ [n - 1] } } ∧
    set_width c n =
      some { c with param :=
        { c.param with width := c.param.width ++ [n - 1] } } ∧
    set_trigger_edge_count c n =
      { c with param := { c.param with trigger_edge_count := n - 1 } } ∧
    set_delay c 0 = set_delay c 1 ∧
    set_width c 0 = set_width c 1 ∧
    set_trigger_edge_count c 0 = set_trigger_edge_count c 1 ∧
    (1 ≤ n → n - 1 + 1 = n) := by
  refine ⟨?_, ?_, rfl, rfl, rfl, rfl, fun h => by omega⟩
  · simp [set_delay, avPush_of_lt _ hd]
  · simp [set_width, avPush_of_lt _ hw]

/-- Witness for C4 at a fresh channel and input 5. -/
theorem set_ops_saturating_witness :
    set_delay (Channel.fresh 15) 5 =
      some { Channel.fresh 15 with param :=
        { (Channel.fresh 15).param with
            delay := (Channel.fresh 15).param.delay ++ [5 - 1] } } ∧
    set_width (Channel.fresh 15) 5 =
      some { Channel.fresh 15 with param :=
        { (Channel.fresh 15).param with
            width := (Channel.fresh 15).param.width ++ [5 - 1] } } ∧
    set_trigger_edge_count (Channel.fresh 15) 5 =
      { Channel.fresh 15 with param :=
        { (Channel.fresh 15).param with trigger_edge_count := 5 - 1 } } ∧
    set_delay (Channel.fresh 15) 0 = set_delay (Channel.fresh 15) 1 ∧
    set_width (Channel.fresh 15) 0 = set_width (Channel.fresh 15) 1 ∧
    set_trigger_edge_count (Channel.fresh 15) 0 =
      set_trigger_edge_count (Channel.fresh 15) 1 ∧
    (1 ≤ 5 → 5 - 1 + 1 = 5) :=
  set_ops_saturating (Channel.fresh 15) 5 (by decide) (by decide)

/-- A channel whose delay and width lists are both full (32 stored
steps). -/
def chFull : Channel :=
  { sm := some (), tx := some (), dma_ch := some (), tx_transfer := none,
    param := { index := 15, delay := List.replicate 32 0,
               width := List.replicate 32 0, trigger_edge_count := 0 } }

/-- C8: with 32 steps already stored, the 33rd `set_delay`
(resp. `set_width`) call is rejected fail-fast (`ArrayVec::push`
panics at capacity, modelled as `none`); and whenever a call succeeds
it appends the step — never truncating or dropping it — so a stored
waveform is never silently shorter than configured. -/
theorem capacity_fail_fast (c : Channel) (n : Nat) :
    (c.param.delay.length = NUM_PULSES_MAX → set_delay c n = none) ∧
    (c.param.width.length = NUM_PULSES_MAX → set_width c n = none) ∧
    (∀ c', set_delay c n = some c' →
      c'.param.delay = c.param.delay ++ [n - 1]) ∧
    (∀ c', set_width c n = some c' →
      c'.param.width = c.param.width ++ [n - 1]) := by
  refine ⟨fun h => ?_, fun h => ?_, fun c' h => ?_, fun c' h => ?_⟩
  · simp [set_delay, avPush, h]
  · simp [set_width, avPush, h]
  · simp only [set_delay, avPush, Option.map_eq_some'] at h
    obtain ⟨d, hd, hc⟩ := h
    split at hd
    · cases hd
      cases hc
      rfl
    · cases hd
  · simp only [set_width, avPush, Option.map_eq_some'] at h
    obtain ⟨w, hw, hc⟩ := h
    split at hw
    · cases hw
      cases hc
      rfl
    · cases hw

/-- Witness for C8: the 33rd `set_delay` and `set_width` on the full
channel are rejected, and a successful `set_delay` on a fresh channel
appends. -/
theorem capacity_fail_fast_witness :
    set_delay chFull 7 = none ∧ set_width chFull 7 = none :=
  ⟨(capacity_fail_fast chFull 7).1 (by decide),
   (capacity_fail_fast chFull 7).2.1 (by decide)⟩

/-- True exactly on `wait` instructions. -/
def isWaitInstr : Instr → Bool
  | .wait _ _ _ _ => true
  | _ => false

/-- C5 (the code contradicts it): the program the coordinator installs
for `Edge { index := 5, polarity := Rising }` gates on GPIO 0, not on
the configured pin 5 — `PulseGenerator::new` calls
`assemble(&trigger, 0)` with a hardcoded 0 and `assemble` reads its
`index` argument, never `edge_trigger.index`. -/
theorem trigger_pin_index_ignored :
    (pulseGeneratorProgram
        (.Edge { index := 5, polarity := .Rising })).filter isWaitInstr =
      [.wait 0 .Gpio 0 false, .wait 1 .Gpio 0 false] ∧
    ((assemble (.Edge { index := 5, polarity := .Rising }) 0).filter
        isWaitInstr).all
      (fun i => match i with
        | .wait _ _ idx _ => idx == 0
        | _ => true) = true := by decide

/-! ### The spec's prescribed program shape (for C6)

The following definitions are written from the spec's words (§4.1 and
the claim), not from the source, and are compared with `assemble`. -/

/-- Written from the spec: the polarity-ordered pair of pin waits —
Rising waits for pin-low then pin-high, Falling for pin-high then
pin-low. -/
def specWaitPair (pin : Nat) : EdgePolarity → List Instr
  | .Rising => [.wait 0 .Gpio pin false, .wait 1 .Gpio pin false]
  | .Falling => [.wait 1 .Gpio pin false, .wait 0 .Gpio pin false]

/-- Written from the spec: the edge-gate prologue — pull one word into
Y, then loop the polarity-ordered wait pair decrementing Y (the loop
head is the first wait, at address 2); an Immediate trigger emits no
prologue. -/
def specPrologue (pin : Nat) : Trigger → List Instr
  | .Immediate => []
  | .Edge et =>
      [.pull false true, .mov .Y .OSR] ++ specWaitPair pin et.polarity ++
      [.jmp .YDecNonZero 2 none]

/-- Written from the spec: the pulse-train loop starting at address
`top` — pull a word into X (delay), pull a word into Y (width),
decrement X to zero with no pin assertion (a self-jump with no
side-set), decrement Y to zero asserting the pin high (self-jump with
side-set 1), then unconditionally assert the pin low and jump back to
the loop top (side-set 0). -/
def specPulseTrain (top : Nat) : List Instr :=
  [.pull false true, .mov .X .OSR,
   .pull false true, .mov .Y .OSR,
   .jmp .XDecNonZero (top + 4) none,
   .jmp .YDecNonZero (top + 5) (some 1),
   .jmp .Always top (some 0)]

/-- Written from the spec: a program has the prescribed shape when it
is the (possibly empty) edge-gate prologue followed by the pulse-train
loop. -/
def SpecProgramShape (t : Trigger) (pin : Nat) (prog : List Instr) : Prop :=
  prog = specPrologue pin t ++ specPulseTrain (specPrologue pin t).length

/-- C6: for every trigger and wait-pin, the compiled program has
exactly the fixed shape the spec prescribes — edge-gate prologue (with
the polarity-ordered waits) only for Edge triggers, nothing for
Immediate, always followed by the pulse-train loop. -/
theorem assemble_matches_spec_shape (t : Trigger) (pin : Nat) :
    SpecProgramShape t pin (assemble t pin) := by
  cases t with
  | Immediate => rfl
  | Edge et =>
      cases et with
      | mk index polarity =>
          cases polarity <;> rfl

/-- C10: `triggered` on a channel with no transfer in flight panics
(`tx_transfer.as_ref().unwrap()` of `None`), whatever the DMA engine's
`is_done` status would be; both channels constructed by
`PulseGenerator::new` start in exactly that state — `triggered` is
only defined after a first successful `arm`. -/
theorem triggered_before_arm (isDone : List Nat → Bool) (t : Trigger)
    (c : Channel) (h : c.tx_transfer = none) :
    triggered isDone c = none ∧
    (PulseGenerator.new t).ch0.tx_transfer = none ∧
    (PulseGenerator.new t).ch1.tx_transfer = none := by
  simp [triggered, h, PulseGenerator.new, Channel.fresh]

/-- Witness for C10 at a concrete status function and a fresh
channel. -/
theorem triggered_before_arm_witness :
    triggered (fun _ => false) (Channel.fresh 15) = none ∧
    (PulseGenerator.new .Immediate).ch0.tx_transfer = none ∧
    (PulseGenerator.new .Immediate).ch1.tx_transfer = none :=
  triggered_before_arm (fun _ => false) .Immediate (Channel.fresh 15) rfl

end PicoPulse
